import Mathlib

/-!
Shallow embedding of the XML repair-order pipeline
(`src/data-engineer/pipe_line/xml_processor.py`).

Modelling decisions:
* Machine timestamps are `Nat` values counting seconds since the Unix epoch
  (1970-01-01 00:00:00).  The pipeline only manipulates naive second-precision
  timestamps, so this is exact.  Civil-date conversion follows the standard
  era-based calendar algorithms, matching `pandas.to_datetime` /
  `Timestamp.strftime` on second-precision naive timestamps.
* A `RawDocument` carries its raw text together with the result of the external
  XML library (`xml.etree.ElementTree.fromstring` plus the fixed `find` paths
  used by `flatten_event`): `parsed = none` models a document on which the XML
  parse raises, and each scalar field is `none` when the corresponding element
  is absent (so that `root.find(...).text` raises `AttributeError`) and
  `some none` when the element is present but empty (`.text` is `None` - no
  exception, a null value in the flat record).  The XML library itself is an
  external collaborator and is not re-implemented.
* `json.dumps` applied to strings and to the repair-parts list is embedded
  faithfully (default `ensure_ascii=True` escaping rules of CPython's `json`).
  `json.loads` as used by `process_to_RO` is embedded as a recursive-descent
  parser for JSON arrays of string-valued objects - the sublanguage that
  `flatten_event` ever stores in the `repair_parts` column.
* `pandas.DataFrame.resample(window).last()` with default options
  (`closed='left'`, `label='left'`, `origin='start_day'`) produces one row per
  bucket edge from the first edge at-or-before the minimum index value to the
  last edge at-or-before the maximum; for each bucket `[edge, edge + window)`
  and each column independently, the emitted value is the last non-null entry
  of that column among the bucket's rows (so a row can mix source records when
  the later ones hold nulls), and a column with no non-null entry in the
  bucket - in particular every column of an empty bucket - is NaN (modelled as
  `none` in `WindowedRow`).  A non-monotonic index is first sorted stably by
  the resampler's grouper; `to_datetime` turns a missing (`None`) value into
  `NaT`, whose rows are dropped from every bucket, and raises on an
  unparseable string, modelled as `Except.error` (as is the all-`NaT` index,
  on which the resampler cannot build its date range).  The window string
  (for example `'1D'`) is modelled as its length in seconds.
* Mutable object state (`eventDf`, `windowed_data`) is modelled by explicit
  state passing (`ProcState`); the run-scoped `pipeline_id` / `load_datetime`
  pair fixed in `__init__` is the immutable `Ctx` threaded to every stage.
* Logging calls are pure side effects with no influence on any data value and
  are not modelled.
-/

/-- One `<part name=... quantity=...>` element, as captured by
`flatten_event` (`part.get('name')`, `part.get('quantity')`). -/
structure RepairPart where
  name : String
  quantity : String
deriving DecidableEq, Repr

/-- The view of a raw document through `xml.etree.ElementTree`: each scalar
field is `none` when the element at the fixed path used by `flatten_event` is
absent (the Python attribute access `root.find(path).text` raises), and
otherwise `some` of the element's `.text` - which is itself `none` for a
present-but-empty element such as `<technician></technician>` (no exception;
the record stores a null).  `repair_parts = none` models an absent
`repair_details/repair_parts` section. -/
structure EventXml where
  order_id : Option (Option String)
  date_time : Option (Option String)
  status : Option (Option String)
  cost : Option (Option String)
  technician : Option (Option String)
  repair_parts : Option (List RepairPart)
deriving DecidableEq, Repr

/-- A raw input document: filename, full raw text, and its ElementTree view
(`parsed = none` when `ET.fromstring` raises on the text). -/
structure RawDocument where
  filename : String
  content : String
  parsed : Option EventXml
deriving DecidableEq, Repr

/-- The run-scoped pipeline context fixed once in `XMLProcessor.__init__`:
`self.pipeline_id = str(uuid.uuid4())` and
`self.load_datetime = datetime.now().strftime(...)`. -/
structure Ctx where
  pipeline_id : String
  load_datetime : String
deriving DecidableEq, Repr

/-- The flat record built by `flatten_event`.  The five scalar fields coming
from `.text` keep the XML text verbatim and are nullable (`None` for a
present-but-empty element); `pipeline_id`, `repair_parts` (the `json.dumps`
of the parts list), `filename` and `load_datetime` are always strings. -/
structure FlatRecord where
  pipeline_id : String
  order_id : Option String
  date_time : Option String
  status : Option String
  cost : Option String
  technician : Option String
  repair_parts : String
  filename : String
  load_datetime : String
deriving DecidableEq, Repr

/-- The record built by `error_record` for a document whose parse failed. -/
structure ErrorRecord where
  pipeline_id : String
  filename : String
  xml_data : String
  load_datetime : String
deriving DecidableEq, Repr

/-- The audit row built by `get_audit_record`. -/
structure AuditRecord where
  pipeline_id : String
  no_files_in_dir : Nat
  no_records_loaded_successfully : Nat
  no_records_failed_to_load : Nat
  load_datetime : String
deriving DecidableEq, Repr

/-- One row of the resampled frame (`date_time` has become the index and is
no longer a column).  Every field is optional: `none` models the NaN that
`last()` leaves in a column with no non-null entry in the bucket - in
particular the all-NaN row of an empty bucket. -/
structure WindowedRow where
  pipeline_id : Option String
  order_id : Option String
  status : Option String
  cost : Option String
  technician : Option String
  repair_parts : Option String
  filename : Option String
  load_datetime : Option String
deriving DecidableEq, Repr

/-- The projected domain object `XMLProcessor.RO`.  The Python annotations
(`order_id: int`, `cost: float`) are not enforced at runtime; the constructor
stores exactly the (possibly NaN, modelled `none`) values taken from the
windowed row, and `repair_parts` the structure decoded by `json.loads`. -/
structure RO where
  order_id : Option String
  status : Option String
  cost : Option String
  technician : Option String
  repair_parts : List RepairPart
deriving DecidableEq, Repr

/-! ## JSON serialization (`json.dumps`, default options) -/

/-- Lower-case hexadecimal digit. -/
def hexDigit (n : Nat) : Char :=
  if n < 10 then Char.ofNat (48 + n) else Char.ofNat (87 + n)

/-- The four-character lower-case hex expansion used in `\uXXXX` escapes. -/
def hex4 (n : Nat) : List Char :=
  [hexDigit (n / 4096 % 16), hexDigit (n / 256 % 16), hexDigit (n / 16 % 16),
   hexDigit (n % 16)]

/-- CPython `json.dumps` character encoding with the default
`ensure_ascii=True`: a character is emitted raw iff it is in `0x20..0x7e` and
is neither `"` nor a backslash; the common controls take two-character
escapes; everything else becomes `\uXXXX` (a surrogate pair for characters
beyond the Basic Multilingual Plane). -/
def jsonEncodeChar (c : Char) : List Char :=
  let n := c.toNat
  if n = 34 then [Char.ofNat 92, Char.ofNat 34]
  else if n = 92 then [Char.ofNat 92, Char.ofNat 92]
  else if n = 10 then [Char.ofNat 92, 'n']
  else if n = 9 then [Char.ofNat 92, 't']
  else if n = 13 then [Char.ofNat 92, 'r']
  else if n = 8 then [Char.ofNat 92, 'b']
  else if n = 12 then [Char.ofNat 92, 'f']
  else if 32 ≤ n ∧ n ≤ 126 then [c]
  else if n < 65536 then Char.ofNat 92 :: 'u' :: hex4 n
  else
    (Char.ofNat 92 :: 'u' :: hex4 (55296 + (n - 65536) / 1024)) ++
    (Char.ofNat 92 :: 'u' :: hex4 (56320 + (n - 65536) % 1024))

/-- Character-list form of the body of a JSON string literal. -/
def jsonEncodeChars : List Char → List Char
  | [] => []
  | c :: cs => jsonEncodeChar c ++ jsonEncodeChars cs

/-- `json.dumps` on a Python `str`: the escaped body wrapped in quotes. -/
def jsonDumpsString (s : String) : String :=
  String.mk (Char.ofNat 34 :: jsonEncodeChars s.data ++ [Char.ofNat 34])

/-- `json.dumps` on one `{'name': ..., 'quantity': ...}` dict (insertion
order of the keys, default separators). -/
def jsonDumpsPart (p : RepairPart) : String :=
  "\x7b\"name\": " ++ jsonDumpsString p.name ++ ", \"quantity\": " ++
    jsonDumpsString p.quantity ++ "\x7d"

/-- `json.dumps` on the list of parts dicts built by `flatten_event`. -/
def jsonDumpsParts (ps : List RepairPart) : String :=
  "[" ++ String.intercalate ", " (ps.map jsonDumpsPart) ++ "]"

/-! ## JSON deserialization (`json.loads` as used by `process_to_RO`)

`process_to_RO` only ever decodes strings produced by
`json.dumps` on a list of string-valued dicts; the embedded parser covers
exactly JSON arrays of objects with string values (failing elsewhere, which
such inputs never are). -/

/-- JSON whitespace. -/
def isJsonWs (c : Char) : Bool :=
  c.toNat = 32 || c.toNat = 9 || c.toNat = 10 || c.toNat = 13

/-- Drop leading JSON whitespace. -/
def skipWs : List Char → List Char
  | [] => []
  | c :: cs => if isJsonWs c then skipWs cs else c :: cs

/-- Hexadecimal digit value, upper or lower case. -/
def hexVal (c : Char) : Option Nat :=
  let n := c.toNat
  if 48 ≤ n ∧ n ≤ 57 then some (n - 48)
  else if 97 ≤ n ∧ n ≤ 102 then some (n - 87)
  else if 65 ≤ n ∧ n ≤ 70 then some (n - 55)
  else none

/-- Read four hex digits. -/
def readHex4 : List Char → Option (Nat × List Char)
  | a :: b :: c :: d :: rest =>
    match hexVal a, hexVal b, hexVal c, hexVal d with
    | some x, some y, some z, some u => some (x * 4096 + y * 256 + z * 16 + u, rest)
    | _, _, _, _ => none
  | _ => none

/-- Body of a JSON string literal (the opening quote already consumed),
fuelled by the input length.  Handles the standard escapes including
`\uXXXX` with surrogate-pair combination; lone surrogates (not representable
as Lean `Char`) are rejected. -/
def parseJStringBody : Nat → List Char → Option (List Char × List Char)
  | 0, _ => none
  | _ + 1, [] => none
  | fuel + 1, c :: cs =>
    if c.toNat = 34 then some ([], cs)
    else if c.toNat = 92 then
      match cs with
      | [] => none
      | e :: cs₂ =>
        let simpleEsc : Option Char :=
          if e.toNat = 34 then some (Char.ofNat 34)
          else if e.toNat = 92 then some (Char.ofNat 92)
          else if e.toNat = 47 then some (Char.ofNat 47)
          else if e = 'n' then some (Char.ofNat 10)
          else if e = 't' then some (Char.ofNat 9)
          else if e = 'r' then some (Char.ofNat 13)
          else if e = 'b' then some (Char.ofNat 8)
          else if e = 'f' then some (Char.ofNat 12)
          else none
        match simpleEsc with
        | some ch =>
          match parseJStringBody fuel cs₂ with
          | some (s, rest) => some (ch :: s, rest)
          | none => none
        | none =>
          if e = 'u' then
            match readHex4 cs₂ with
            | none => none
            | some (n, cs₃) =>
              if h : n < 55296 ∨ (57343 < n ∧ n < 1114112) then
                match parseJStringBody fuel cs₃ with
                | some (s, rest) => some (Char.ofNatAux n (by omega) :: s, rest)
                | none => none
              else if hn : 55296 ≤ n ∧ n ≤ 56319 then
                match cs₃ with
                | b1 :: b2 :: cs₄ =>
                  if b1.toNat = 92 ∧ b2 = 'u' then
                    match readHex4 cs₄ with
                    | none => none
                    | some (m, cs₅) =>
                      if hm : 56320 ≤ m ∧ m ≤ 57343 then
                        match parseJStringBody fuel cs₅ with
                        | some (s, rest) =>
                          some (Char.ofNatAux
                            (65536 + (n - 55296) * 1024 + (m - 56320))
                            (by omega) :: s, rest)
                        | none => none
                      else none
                  else none
                | _ => none
              else none
          else none
    else
      match parseJStringBody fuel cs with
      | some (s, rest) => some (c :: s, rest)
      | none => none

/-- A JSON string literal starting at the head of the input. -/
def parseJString (fuel : Nat) (cs : List Char) : Option (String × List Char) :=
  match cs with
  | c :: cs₁ =>
    if c.toNat = 34 then
      match parseJStringBody fuel cs₁ with
      | some (s, rest) => some (String.mk s, rest)
      | none => none
    else none
  | [] => none

/-- The members of a JSON object with string values, after the opening brace;
returns the key/value pairs in order. -/
def parseJMembers : Nat → List Char → Option (List (String × String) × List Char)
  | 0, _ => none
  | fuel + 1, cs =>
    match parseJString fuel (skipWs cs) with
    | none => none
    | some (k, cs₁) =>
      match skipWs cs₁ with
      | c :: cs₂ =>
        if c.toNat = 58 then
          match parseJString fuel (skipWs cs₂) with
          | none => none
          | some (v, cs₃) =>
            match skipWs cs₃ with
            | d :: cs₄ =>
              if d.toNat = 44 then
                match parseJMembers fuel cs₄ with
                | some (ms, rest) => some ((k, v) :: ms, rest)
                | none => none
              else if d.toNat = 125 then some ([(k, v)], cs₄)
              else none
            | [] => none
        else none
      | [] => none

/-- One JSON object with string values, decoded to a `RepairPart` via its `name`
and `quantity` members (the only shape `flatten_event` ever serializes). -/
def parseJPart (fuel : Nat) (cs : List Char) : Option (RepairPart × List Char) :=
  match cs with
  | c :: cs₁ =>
    if c.toNat = 123 then
      match skipWs cs₁ with
      | d :: cs₂ =>
        if d.toNat = 125 then none
        else
          match parseJMembers fuel (d :: cs₂) with
          | none => none
          | some (ms, rest) =>
            match ms.lookup "name", ms.lookup "quantity" with
            | some n, some q => some (⟨n, q⟩, rest)
            | _, _ => none
      | [] => none
    else none
  | [] => none

/-- The elements of a JSON array of parts, after the first element's start. -/
def parseJPartsTail : Nat → List Char → Option (List RepairPart × List Char)
  | 0, _ => none
  | fuel + 1, cs =>
    match parseJPart fuel cs with
    | none => none
    | some (p, cs₁) =>
      match skipWs cs₁ with
      | c :: cs₂ =>
        if c.toNat = 44 then
          match parseJPartsTail fuel (skipWs cs₂) with
          | some (ps, rest) => some (p :: ps, rest)
          | none => none
        else if c.toNat = 93 then some ([p], cs₂)
        else none
      | [] => none

/-- `json.loads` on the `repair_parts` column: a JSON array of string-valued
objects, with nothing but whitespace after it. -/
def jsonLoadsParts (s : String) : Option (List RepairPart) :=
  match skipWs s.data with
  | c :: cs =>
    if c.toNat = 91 then
      match skipWs cs with
      | d :: cs₁ =>
        if d.toNat = 93 then
          match skipWs cs₁ with
          | [] => some []
          | _ => none
        else
          match parseJPartsTail (s.length + 1) (d :: cs₁) with
          | some (ps, rest) =>
            match skipWs rest with
            | [] => some ps
            | _ => none
          | none => none
      | [] => none
    else none
  | [] => none

/-! ## Civil-calendar timestamp arithmetic -/

/-- Days since 1970-01-01 of the civil date `(y, m, d)`; the standard
era-based algorithm, valid for the Gregorian dates this pipeline handles
(years at or after 1970). -/
def daysFromCivil (y m d : Nat) : Nat :=
  let yy := if m ≤ 2 then y - 1 else y
  let era := yy / 400
  let yoe := yy % 400
  let mp := (m + 9) % 12
  let doy := (153 * mp + 2) / 5 + d - 1
  let doe := yoe * 365 + yoe / 4 - yoe / 100 + doy
  era * 146097 + doe - 719468

/-- Civil date `(y, m, d)` of a day count since 1970-01-01 (inverse of
`daysFromCivil` on its valid range). -/
def civilFromDays (z : Nat) : Nat × Nat × Nat :=
  let zz := z + 719468
  let era := zz / 146097
  let doe := zz % 146097
  let yoe := (doe - doe / 1460 + doe / 36524 - doe / 146096) / 365
  let y := yoe + era * 400
  let doy := doe - (365 * yoe + yoe / 4 - yoe / 100)
  let mp := (5 * doy + 2) / 153
  let d := doy - (153 * mp + 2) / 5 + 1
  let m := if mp < 10 then mp + 3 else mp - 9
  (if m ≤ 2 then y + 1 else y, m, d)

/-- Decimal digit value. -/
def digitVal (c : Char) : Option Nat :=
  if 48 ≤ c.toNat ∧ c.toNat ≤ 57 then some (c.toNat - 48) else none

/-- Gregorian leap year. -/
def isLeapYear (y : Nat) : Bool :=
  (y % 4 == 0 && y % 100 != 0) || y % 400 == 0

/-- Number of days in a month of a given year. -/
def daysInMonth (y m : Nat) : Nat :=
  if m = 2 then (if isLeapYear y then 29 else 28)
  else if m = 4 ∨ m = 6 ∨ m = 9 ∨ m = 11 then 30
  else 31

/-- `pandas.to_datetime` on the ISO-8601 second-precision text this pipeline
carries in `date_time` (`YYYY-MM-DDTHH:MM:SS`, a space also accepted as the
separator), as the epoch-second count; `none` models the raised parse error
on anything else, including civil dates that do not exist (such as a
February 30th).  Timestamps before 1970 lie outside the `Nat` time axis of
this embedding and are not modelled. -/
def parseDateTime (s : String) : Option Nat :=
  match s.data with
  | [y1, y2, y3, y4, s1, m1, m2, s2, d1, d2, sep, h1, h2, s3, n1, n2, s4, c1, c2] =>
    if s1.toNat = 45 ∧ s2.toNat = 45 ∧ (sep = 'T' ∨ sep.toNat = 32) ∧
       s3.toNat = 58 ∧ s4.toNat = 58 then
      match digitVal y1, digitVal y2, digitVal y3, digitVal y4, digitVal m1,
            digitVal m2, digitVal d1, digitVal d2, digitVal h1, digitVal h2,
            digitVal n1, digitVal n2, digitVal c1, digitVal c2 with
      | some a, some b, some c, some d, some e, some f, some g, some h,
        some i, some j, some k, some l, some o, some p =>
        let year := a * 1000 + b * 100 + c * 10 + d
        let month := e * 10 + f
        let day := g * 10 + h
        let hour := i * 10 + j
        let minute := k * 10 + l
        let second := o * 10 + p
        if 1 ≤ month ∧ month ≤ 12 ∧ 1 ≤ day ∧ day ≤ daysInMonth year month ∧
           hour < 24 ∧ minute < 60 ∧ second < 60 ∧ 1970 ≤ year then
          some (daysFromCivil year month day * 86400 + hour * 3600 +
                minute * 60 + second)
        else none
      | _, _, _, _, _, _, _, _, _, _, _, _, _, _ => none
    else none
  | _ => none

/-- Zero-padded two-digit decimal (`strftime` field). -/
def pad2 (n : Nat) : String :=
  if n < 10 then "0" ++ toString n else toString n

/-- Zero-padded four-digit decimal (`strftime` `%Y`). -/
def pad4 (n : Nat) : String :=
  if n < 10 then "000" ++ toString n
  else if n < 100 then "00" ++ toString n
  else if n < 1000 then "0" ++ toString n
  else toString n

/-- `Timestamp.strftime('%Y-%m-%d %H:%M:%S')` on an epoch-second count. -/
def fmtTimestamp (t : Nat) : String :=
  let dte := civilFromDays (t / 86400)
  let secs := t % 86400
  pad4 dte.1 ++ "-" ++ pad2 dte.2.1 ++ "-" ++ pad2 dte.2.2 ++ " " ++
    pad2 (secs / 3600) ++ ":" ++ pad2 (secs % 3600 / 60) ++ ":" ++
    pad2 (secs % 60)

/-! ## Event Parser (`flatten_event`) and error records -/

/-- The exception raised out of `flatten_event`: `ET.ParseError` for malformed
XML, or the `AttributeError` from `root.find(path).text` when the element at
a required path is absent. -/
inductive ParseFailure where
  | malformedXml : ParseFailure
  | missingField : String → ParseFailure
deriving DecidableEq, Repr

/-- `XMLProcessor.flatten_event`: flatten one event document into a
`FlatRecord`, or signal the uncaught exception to the caller.  Field accesses
happen in source order (`order_id`, `date_time`, `status`, `cost`,
`technician`); an absent `repair_parts` section yields an empty list. -/
def flatten_event (ctx : Ctx) (doc : RawDocument) : Except ParseFailure FlatRecord :=
  match doc.parsed with
  | none => .error .malformedXml
  | some ev =>
    match ev.order_id with
    | none => .error (.missingField "order_id")
    | some order_id =>
      match ev.date_time with
      | none => .error (.missingField "date_time")
      | some date_time =>
        match ev.status with
        | none => .error (.missingField "status")
        | some status =>
          match ev.cost with
          | none => .error (.missingField "cost")
          | some cost =>
            match ev.technician with
            | none => .error (.missingField "technician")
            | some technician =>
              let parts := ev.repair_parts.getD []
              .ok
                { pipeline_id := ctx.pipeline_id
                  order_id := order_id
                  date_time := date_time
                  status := status
                  cost := cost
                  technician := technician
                  repair_parts := jsonDumpsParts parts
                  filename := doc.filename
                  load_datetime := ctx.load_datetime }

/-- `XMLProcessor.error_record`: note that the raw content is stored as
`json.dumps(content)`, not as the content itself. -/
def error_record (ctx : Ctx) (file content : String) : ErrorRecord :=
  { pipeline_id := ctx.pipeline_id
    filename := file
    xml_data := jsonDumpsString content
    load_datetime := ctx.load_datetime }

/-! ## Batch Processor (`process_xml_files`) -/

/-- `XMLProcessor.process_xml_files`: apply `flatten_event` to each document;
a success is appended to the good collection, any exception is caught and an
`error_record` built from the original text is appended to the bad
collection, and the loop continues with the next document.  Input order is
preserved inside each collection. -/
def process_xml_files (ctx : Ctx) : List RawDocument → List FlatRecord × List ErrorRecord
  | [] => ([], [])
  | doc :: docs =>
    let rest := process_xml_files ctx docs
    match flatten_event ctx doc with
    | .ok r => (r :: rest.1, rest.2)
    | .error _ => (rest.1, error_record ctx doc.filename doc.content :: rest.2)

/-- `XMLProcessor.get_audit_record` (the source returns a singleton list). -/
def get_audit_record (ctx : Ctx) (files : List String) (good : List FlatRecord)
    (bad : List ErrorRecord) : List AuditRecord :=
  [{ pipeline_id := ctx.pipeline_id
     no_files_in_dir := files.length
     no_records_loaded_successfully := good.length
     no_records_failed_to_load := bad.length
     load_datetime := ctx.load_datetime }]

/-! ## Time Windower (`window_by_datetime`) -/

/-- `pd.to_datetime` applied to the whole `date_time` column, keeping each
record paired with its parsed timestamp: a missing (`None`) value becomes
`NaT` (the inner `none`); an unparseable string raises, modelled by the
outer `none`. -/
def parseTimes : List FlatRecord → Option (List (FlatRecord × Option Nat))
  | [] => some []
  | r :: rs =>
    match r.date_time with
    | none => (parseTimes rs).map (fun ps => (r, none) :: ps)
    | some s =>
      match parseDateTime s, parseTimes rs with
      | some t, some ps => some ((r, some t) :: ps)
      | _, _ => none

/-- Insert a record into a list already sorted by timestamp, before the
first later-or-equal entry (the stable-sort insertion step). -/
def insertByTime (p : FlatRecord × Nat) :
    List (FlatRecord × Nat) → List (FlatRecord × Nat)
  | [] => [p]
  | q :: qs => if p.2 ≤ q.2 then p :: q :: qs else q :: insertByTime p qs

/-- The stable sort of the rows by their timestamp index that `resample`
performs on a non-monotonic `DatetimeIndex` (`Grouper._set_grouper` sorts
with a stable mergesort; on an already monotonic index this is the
identity).  Equal timestamps keep their input order. -/
def sortByTime : List (FlatRecord × Nat) → List (FlatRecord × Nat)
  | [] => []
  | p :: ps => insertByTime p (sortByTime ps)

/-- The value `resample(window).last()` keeps for one column (read through
`f`, with `none` for a null entry) in the bucket labelled `b`: the last
non-null entry of that column among the rows, in row order, whose timestamp
falls in the bucket (`b0` is the resampling origin, the midnight starting the
first day of data; the bucket of a timestamp `t` is the edge
`b0 + (t - b0) / w * w`).  `none` models the NaN of a column with no non-null
entry in the bucket - in particular of every column of an empty bucket. -/
def lastNonNullInBin (w b0 b : Nat) (f : FlatRecord → Option String) :
    List (FlatRecord × Nat) → Option String
  | [] => none
  | p :: ps =>
    match lastNonNullInBin w b0 b f ps with
    | some v => some v
    | none => if b0 + (p.2 - b0) / w * w == b then f p.1 else none

/-- `XMLProcessor.window_by_datetime`, as a pure function of the successes
collection (`self.eventDf`) and the window length `w` in seconds: empty input
short-circuits to an empty dict; otherwise the `date_time` column is parsed
(`NaT` for missing values, raising on unparseable strings), rows with a `NaT`
index are dropped, the remaining rows are stably sorted by timestamp and
resampled over consecutive buckets of `w` seconds anchored at the midnight
starting the first day (pandas default `origin='start_day'`; an all-`NaT`
index raises, the resampler cannot build a date range from `NaT` edges), and
each bucket edge, formatted at second precision, is mapped to the row holding
the last non-null entry of each column among the bucket's rows - the all-NaN
row when the bucket is empty.  The resulting keyed structure is modelled as
the association list in key order, matching Python dict insertion order over
`resampled.iterrows()`. -/
def window_by_datetime (w : Nat) (recs : List FlatRecord) :
    Except String (List (String × WindowedRow)) :=
  if recs.isEmpty then .ok []
  else
    match parseTimes recs with
    | none => .error "could not parse date_time column"
    | some pairs =>
      let valid := pairs.filterMap (fun p => p.2.map (fun u => (p.1, u)))
      match valid.map Prod.snd with
      | [] => .error "cannot build a date range from an all-NaT index"
      | t :: ts =>
        let sorted := sortByTime valid
        let tmin := ts.foldl Nat.min t
        let tmax := ts.foldl Nat.max t
        let b0 := tmin / 86400 * 86400
        let k1 := (tmin - b0) / w
        let k2 := (tmax - b0) / w
        .ok ((List.range (k2 - k1 + 1)).map (fun i =>
          (fmtTimestamp (b0 + (k1 + i) * w),
           { pipeline_id := lastNonNullInBin w b0 (b0 + (k1 + i) * w)
               (fun r => some r.pipeline_id) sorted
             order_id := lastNonNullInBin w b0 (b0 + (k1 + i) * w)
               (fun r => r.order_id) sorted
             status := lastNonNullInBin w b0 (b0 + (k1 + i) * w)
               (fun r => r.status) sorted
             cost := lastNonNullInBin w b0 (b0 + (k1 + i) * w)
               (fun r => r.cost) sorted
             technician := lastNonNullInBin w b0 (b0 + (k1 + i) * w)
               (fun r => r.technician) sorted
             repair_parts := lastNonNullInBin w b0 (b0 + (k1 + i) * w)
               (fun r => some r.repair_parts) sorted
             filename := lastNonNullInBin w b0 (b0 + (k1 + i) * w)
               (fun r => some r.filename) sorted
             load_datetime := lastNonNullInBin w b0 (b0 + (k1 + i) * w)
               (fun r => some r.load_datetime) sorted })))

/-! ## Projection Stage (`process_to_RO`) -/

/-- The exception raised out of `process_to_RO`: `json.loads` on the all-NaN
row of an empty bucket raises `TypeError`, and on an undecodable string
raises `json.JSONDecodeError`. -/
inductive ProjFailure where
  | nullRow : String → ProjFailure
  | badJson : String → ProjFailure
deriving DecidableEq, Repr

/-- `XMLProcessor.process_to_RO` over the windowed mapping: one `RO` per
entry in key order, decoding the embedded `repair_parts` value (a NaN there -
every entry of an empty bucket has one - raises `TypeError`); the first
failing entry aborts the whole call with its exception.  The other columns
are copied as found, NaN included. -/
def process_to_RO : List (String × WindowedRow) → Except ProjFailure (List RO)
  | [] => .ok []
  | (k, row) :: rest =>
    match row.repair_parts with
    | none => .error (.nullRow k)
    | some s =>
      match jsonLoadsParts s with
      | none => .error (.badJson k)
      | some parts =>
        match process_to_RO rest with
        | .ok ros =>
          .ok ({ order_id := row.order_id, status := row.status,
                 cost := row.cost, technician := row.technician,
                 repair_parts := parts } :: ros)
        | .error e => .error e

/-! ## Object state (`self.eventDf`, `self.windowed_data`) -/

/-- The mutable state the windowing and projection methods touch on the
`XMLProcessor` object. -/
structure ProcState where
  eventDf : List FlatRecord
  windowed_data : List (String × WindowedRow)
deriving DecidableEq, Repr

/-- `window_by_datetime` as a state transition: it reads `self.eventDf`,
works on a deep copy (`self.eventDf.copy(deep=True)`), and stores the
resulting mapping in `self.windowed_data`.  On the empty-input short-circuit
the state is untouched; on a raised exception `self.eventDf` is likewise
untouched (only the scratch copy was mutated). -/
def window_by_datetime_run (w : Nat) (s : ProcState) :
    Except String (List (String × WindowedRow)) × ProcState :=
  if s.eventDf.isEmpty then (.ok [], s)
  else
    match window_by_datetime w s.eventDf with
    | .ok m => (.ok m, { s with windowed_data := m })
    | .error e => (.error e, s)

/-- `process_to_RO` as a state transition: it only reads
`self.windowed_data` and builds a fresh list, leaving the state unchanged. -/
def process_to_RO_run (s : ProcState) : Except ProjFailure (List RO) × ProcState :=
  (process_to_RO s.windowed_data, s)

/-! ## Concrete fixtures

The documents of the repository's test suite (`test_xml_processor.py`) plus a
third one a further day later, under a fixed run context. -/

/-- A fixed run context for concrete instances. -/
def ctx0 : Ctx :=
  { pipeline_id := "f47ac10b-58cc-4372-a567-0e02b2c3d479"
    load_datetime := "2024-01-05 09:00:00" }

/-- The first test document (`test1.xml`, order 101 at 2023-08-10T10:00:00). -/
def doc101 : RawDocument :=
  { filename := "test1.xml"
    content := "<event>\n<order_id>101</order_id>\n    <date_time>2023-08-10T10:00:00</date_time>\n    <status>In Progress</status>\n    <cost>50.25</cost>\n    <repair_details>\n        <technician>Jane Smith</technician>\n            <repair_parts>\n                <part name=\"Air Filter\" quantity=\"1\"/>\n            </repair_parts>\n    </repair_details>\n</event>"
    parsed := some
      { order_id := some (some "101")
        date_time := some (some "2023-08-10T10:00:00")
        status := some (some "In Progress")
        cost := some (some "50.25")
        technician := some (some "Jane Smith")
        repair_parts := some [{ name := "Air Filter", quantity := "1" }] } }

/-- The second test document (`test2.xml`, order 102 at 2023-08-11T12:00:00). -/
def doc102 : RawDocument :=
  { filename := "test2.xml"
    content := "<event>\n    <order_id>102</order_id>\n    <date_time>2023-08-11T12:00:00</date_time>\n    <status>Completed</status>\n    <cost>75.00</cost>\n    <repair_details>\n        <technician>John Doe</technician>\n            <repair_parts>\n                <part name=\"Oil Filter\" quantity=\"2\"/>\n            </repair_parts>\n    </repair_details>\n</event>"
    parsed := some
      { order_id := some (some "102")
        date_time := some (some "2023-08-11T12:00:00")
        status := some (some "Completed")
        cost := some (some "75.00")
        technician := some (some "John Doe")
        repair_parts := some [{ name := "Oil Filter", quantity := "2" }] } }

/-- A document whose `repair_details/technician` element is absent, so that
`root.find('repair_details/technician').text` raises. -/
def docNoTech : RawDocument :=
  { filename := "bad.xml"
    content := "<event><order_id>7</order_id><date_time>2023-08-10T10:00:00</date_time><status>Open</status><cost>1.00</cost></event>"
    parsed := some
      { order_id := some (some "7")
        date_time := some (some "2023-08-10T10:00:00")
        status := some (some "Open")
        cost := some (some "1.00")
        technician := none
        repair_parts := none } }

/-- The flat record `flatten_event` produces for `doc101` under `ctx0`. -/
def rec101 : FlatRecord :=
  { pipeline_id := ctx0.pipeline_id
    order_id := some "101"
    date_time := some "2023-08-10T10:00:00"
    status := some "In Progress"
    cost := some "50.25"
    technician := some "Jane Smith"
    repair_parts := jsonDumpsParts [{ name := "Air Filter", quantity := "1" }]
    filename := "test1.xml"
    load_datetime := ctx0.load_datetime }

/-- The flat record `flatten_event` produces for `doc102` under `ctx0`. -/
def rec102 : FlatRecord :=
  { pipeline_id := ctx0.pipeline_id
    order_id := some "102"
    date_time := some "2023-08-11T12:00:00"
    status := some "Completed"
    cost := some "75.00"
    technician := some "John Doe"
    repair_parts := jsonDumpsParts [{ name := "Oil Filter", quantity := "2" }]
    filename := "test2.xml"
    load_datetime := ctx0.load_datetime }

/-- A third successful record two days after `rec101` (2023-08-12T09:30:00),
leaving the 2023-08-11 day bucket with no record. -/
def rec103 : FlatRecord :=
  { rec102 with order_id := some "103", date_time := some "2023-08-12T09:30:00",
                filename := "test3.xml" }

/-- A successful record on the same day as `rec101` but two hours later,
with a null technician (a present-but-empty `<technician></technician>`
element) and no parts: the case where `resample(w).last()` mixes columns
from different records within one bucket. -/
def rec104 : FlatRecord :=
  { pipeline_id := ctx0.pipeline_id
    order_id := some "104"
    date_time := some "2023-08-10T12:00:00"
    status := some "Completed"
    cost := some "20.00"
    technician := none
    repair_parts := jsonDumpsParts []
    filename := "test4.xml"
    load_datetime := ctx0.load_datetime }

/-- The windowed row of a bucket holding a single record, or holding several
whose last one has no null fields: every column takes that record's value. -/
def rowOfRecord (r : FlatRecord) : WindowedRow :=
  { pipeline_id := some r.pipeline_id
    order_id := r.order_id
    status := r.status
    cost := r.cost
    technician := r.technician
    repair_parts := some r.repair_parts
    filename := some r.filename
    load_datetime := some r.load_datetime }

/-- The all-NaN row emitted for a bucket containing no records. -/
def nanRow : WindowedRow :=
  { pipeline_id := none, order_id := none, status := none, cost := none,
    technician := none, repair_parts := none, filename := none,
    load_datetime := none }

/-- The projection of `rec101`. -/
def ro101 : RO :=
  { order_id := some "101", status := some "In Progress", cost := some "50.25",
    technician := some "Jane Smith",
    repair_parts := [{ name := "Air Filter", quantity := "1" }] }

/-- The projection of `rec102`. -/
def ro102 : RO :=
  { order_id := some "102", status := some "Completed", cost := some "75.00",
    technician := some "John Doe",
    repair_parts := [{ name := "Oil Filter", quantity := "2" }] }

/-- A concrete object state after windowing the two test records. -/
def wstate0 : ProcState :=
  { eventDf := [rec101, rec102]
    windowed_data := [("2023-08-10 00:00:00", rowOfRecord rec101),
                      ("2023-08-11 00:00:00", rowOfRecord rec102)] }

/-! ## Helper lemmas -/

/-- Any record `flatten_event` returns carries the run context verbatim. -/
theorem flatten_event_ctx (ctx : Ctx) (d : RawDocument) (r : FlatRecord)
    (h : flatten_event ctx d = .ok r) :
    r.pipeline_id = ctx.pipeline_id ∧ r.load_datetime = ctx.load_datetime := by
  unfold flatten_event at h
  repeat' split at h
  all_goals first
    | (injection h; done)
    | (injection h with h2; cases h2; exact ⟨rfl, rfl⟩)

/-- A document on which `flatten_event` raises contributes its error record
to the failure collection of any batch containing it. -/
theorem error_record_mem_of_failure (ctx : Ctx) (d : RawDocument) (e : ParseFailure)
    (herr : flatten_event ctx d = .error e) (docs : List RawDocument) (hd : d ∈ docs) :
    error_record ctx d.filename d.content ∈ (process_xml_files ctx docs).2 := by
  induction docs with
  | nil => cases hd
  | cons d0 ds ih =>
    rcases List.mem_cons.mp hd with rfl | hmem
    · simp [process_xml_files, herr]
    · have hrec := ih hmem
      cases h0 : flatten_event ctx d0 with
      | ok r => simpa [process_xml_files, h0] using hrec
      | error e0 =>
        simp only [process_xml_files, h0, List.mem_cons]
        exact Or.inr hrec

/-- Every character encodes to at least one character under the `json.dumps`
escaping rules. -/
theorem one_le_length_jsonEncodeChar (c : Char) : 1 ≤ (jsonEncodeChar c).length := by
  simp only [jsonEncodeChar]
  repeat' split
  all_goals simp [hex4]

/-- JSON-encoding a character list never shortens it. -/
theorem length_le_jsonEncodeChars (l : List Char) :
    l.length ≤ (jsonEncodeChars l).length := by
  induction l with
  | nil => simp [jsonEncodeChars]
  | cons c cs ih =>
    have := one_le_length_jsonEncodeChar c
    simp only [jsonEncodeChars, List.length_append, List.length_cons]
    omega

/-- The running minimum is at most its seed. -/
theorem foldl_min_le_self (ts : List Nat) (t : Nat) : ts.foldl Nat.min t ≤ t := by
  induction ts generalizing t with
  | nil => exact Nat.le_refl t
  | cons b bs ih =>
    exact Nat.le_trans (ih (Nat.min t b)) (Nat.min_le_left t b)

/-- The running minimum is a lower bound of every element it has seen. -/
theorem foldl_min_le_mem (ts : List Nat) (t x : Nat) (hx : x ∈ ts) :
    ts.foldl Nat.min t ≤ x := by
  induction ts generalizing t with
  | nil => cases hx
  | cons b bs ih =>
    rcases List.mem_cons.mp hx with rfl | hmem
    · exact Nat.le_trans (foldl_min_le_self bs (Nat.min t x)) (Nat.min_le_right t x)
    · exact ih (Nat.min t b) hmem

/-- The running maximum is at least its seed. -/
theorem le_foldl_max_self (ts : List Nat) (t : Nat) : t ≤ ts.foldl Nat.max t := by
  induction ts generalizing t with
  | nil => exact Nat.le_refl t
  | cons b bs ih =>
    exact Nat.le_trans (Nat.le_max_left t b) (ih (Nat.max t b))

/-- The running maximum is an upper bound of every element it has seen. -/
theorem mem_le_foldl_max (ts : List Nat) (t x : Nat) (hx : x ∈ ts) :
    x ≤ ts.foldl Nat.max t := by
  induction ts generalizing t with
  | nil => cases hx
  | cons b bs ih =>
    rcases List.mem_cons.mp hx with rfl | hmem
    · exact Nat.le_trans (Nat.le_max_right t x) (le_foldl_max_self bs (Nat.max t x))
    · exact ih (Nat.max t b) hmem

/-- A windowed mapping containing a row with a NaN `repair_parts` value - in
particular the all-NaN row of an empty bucket - makes `process_to_RO` raise
at the first failing entry. -/
theorem process_to_RO_error_of_mem_none (m : List (String × WindowedRow))
    (k : String) (row : WindowedRow) (hk : (k, row) ∈ m)
    (hrp : row.repair_parts = none) :
    ∃ e, process_to_RO m = .error e := by
  induction m with
  | nil => cases hk
  | cons entry rest ih =>
    obtain ⟨k0, row0⟩ := entry
    cases hj : row0.repair_parts with
    | none => exact ⟨.nullRow k0, by simp [process_to_RO, hj]⟩
    | some s =>
      have hmem : (k, row) ∈ rest := by
        rcases List.mem_cons.mp hk with h0 | h0
        · exfalso
          have hr : row = row0 := congrArg Prod.snd h0
          rw [hr, hj] at hrp
          cases hrp
        · exact h0
      obtain ⟨e, he⟩ := ih hmem
      cases hjl : jsonLoadsParts s with
      | none => exact ⟨.badJson k0, by simp [process_to_RO, hj, hjl]⟩
      | some parts => exact ⟨e, by simp [process_to_RO, hj, hjl, he]⟩

/-- `Nat` boolean equality is the decision procedure for equality. -/
theorem beq_nat_decide (a b : Nat) : (a == b) = decide (a = b) := by
  by_cases h : a = b <;> simp [h]

/-- `filterMap` with a total function is `map`. -/
theorem filterMap_some_comp {α β : Type} (g : α → β) (l : List α) :
    l.filterMap (fun a => some (g a)) = l.map g := by
  induction l with
  | nil => rfl
  | cons a as ih => simp [List.filterMap_cons, ih]

/-- The value `lastNonNullInBin` keeps for a column in a bucket is the last
entry of that column's non-null values over the input filtered to the
bucket. -/
theorem lastNonNullInBin_eq (w b0 b : Nat) (f : FlatRecord → Option String)
    (l : List (FlatRecord × Nat)) :
    lastNonNullInBin w b0 b f l =
      ((l.filter (fun p => b0 + (p.2 - b0) / w * w == b)).filterMap
        (fun p => f p.1)).getLast? := by
  induction l with
  | nil => rfl
  | cons p ps ih =>
    rw [lastNonNullInBin, List.filter_cons]
    cases hpb : (b0 + (p.2 - b0) / w * w == b) with
    | true =>
      simp only [hpb, if_true]
      rw [List.filterMap_cons]
      cases hl : lastNonNullInBin w b0 b f ps with
      | some v =>
        rw [hl] at ih
        cases hf : f p.1 with
        | none => simp only [hf]; exact ih
        | some u =>
          simp only [hf]
          rw [List.getLast?_cons, ← ih]
          rfl
      | none =>
        rw [hl] at ih
        cases hf : f p.1 with
        | none => simp only [hf]; exact ih
        | some u =>
          simp only [hf]
          rw [List.getLast?_cons, ← ih]
          rfl
    | false =>
      simp only [hpb, Bool.false_eq_true, if_false]
      cases hl : lastNonNullInBin w b0 b f ps with
      | some v => rw [hl] at ih; exact ih
      | none => rw [hl] at ih; exact ih

/-- A timestamp at or after the origin `b0` falls in the bucket with edge
`b0 + k * w` exactly when it lies in the half-open window of length `w`
starting there. -/
theorem bucket_eq_iff (w b0 k tp : Nat) (hw : 0 < w) (hb0 : b0 ≤ tp) :
    (b0 + (tp - b0) / w * w = b0 + k * w) ↔
      (b0 + k * w ≤ tp ∧ tp < b0 + k * w + w) := by
  have h1 : (tp - b0) / w * w = k * w ↔ (tp - b0) / w = k :=
    ⟨fun hh => Nat.eq_of_mul_eq_mul_right hw hh, fun hh => by rw [hh]⟩
  have h2 : (tp - b0) / w = k ↔ k * w ≤ tp - b0 ∧ tp - b0 < k * w + w := by
    constructor
    · intro hh
      refine ⟨by rw [← hh]; exact Nat.div_mul_le_self _ _, ?_⟩
      have hmod := Nat.div_add_mod (tp - b0) w
      have hlt := Nat.mod_lt (tp - b0) hw
      rw [hh] at hmod
      have hcomm : w * k = k * w := Nat.mul_comm w k
      omega
    · intro hh
      have ha : k ≤ (tp - b0) / w := (Nat.le_div_iff_mul_le hw).mpr hh.1
      have hb : (tp - b0) / w < k + 1 := by
        apply (Nat.div_lt_iff_lt_mul hw).mpr
        have hx : (k + 1) * w = k * w + w := by ring
        omega
      omega
  constructor
  · intro hh
    have hx := h2.mp (h1.mp (Nat.add_left_cancel hh))
    omega
  · intro hh
    have hx : k * w ≤ tp - b0 ∧ tp - b0 < k * w + w := by omega
    rw [h1.mpr (h2.mpr hx)]

/-- Membership is preserved by the stable-sort insertion step. -/
theorem mem_insertByTime (p a : FlatRecord × Nat) (l : List (FlatRecord × Nat)) :
    a ∈ insertByTime p l ↔ a = p ∨ a ∈ l := by
  induction l with
  | nil => simp [insertByTime]
  | cons q qs ih =>
    rw [insertByTime]
    split
    · simp [List.mem_cons]
    · rw [List.mem_cons, ih, List.mem_cons]
      tauto

/-- The stable sort by timestamp keeps exactly the input rows. -/
theorem mem_sortByTime (a : FlatRecord × Nat) (l : List (FlatRecord × Nat)) :
    a ∈ sortByTime l ↔ a ∈ l := by
  induction l with
  | nil => simp [sortByTime]
  | cons p ps ih =>
    rw [sortByTime, mem_insertByTime, ih, List.mem_cons]

/-- Characterization of a successful windowing run: with a parseable
`date_time` column holding at least one non-missing value, the result maps
every bucket edge from the one at-or-before the earliest timestamp to the one
at-or-before the latest (anchored at `b0`, the midnight starting the first
day) to the row holding, for each column independently, the last non-null
entry of that column among the records - in timestamp order with input-order
tie-break - whose timestamp lies in the half-open bucket starting at that
edge; every column of an empty bucket is `none` (the all-NaN row). -/
theorem window_ok_eq (w : Nat) (recs : List FlatRecord)
    (pairs : List (FlatRecord × Option Nat)) (valid : List (FlatRecord × Nat))
    (t : Nat) (ts : List Nat) (b0 k1 k2 : Nat) (hw : 0 < w)
    (hne : recs.isEmpty = false) (hp : parseTimes recs = some pairs)
    (hv : pairs.filterMap (fun p => p.2.map (fun u => (p.1, u))) = valid)
    (hts : valid.map Prod.snd = t :: ts)
    (hb0 : b0 = ts.foldl Nat.min t / 86400 * 86400)
    (hk1 : k1 = (ts.foldl Nat.min t - b0) / w)
    (hk2 : k2 = (ts.foldl Nat.max t - b0) / w) :
    window_by_datetime w recs = .ok ((List.range (k2 - k1 + 1)).map (fun i =>
      (fmtTimestamp (b0 + (k1 + i) * w),
       { pipeline_id := (((sortByTime valid).filter (fun p =>
             decide (b0 + (k1 + i) * w ≤ p.2 ∧
               p.2 < b0 + (k1 + i) * w + w))).map
             (fun p => p.1.pipeline_id)).getLast?
         order_id := (((sortByTime valid).filter (fun p =>
             decide (b0 + (k1 + i) * w ≤ p.2 ∧
               p.2 < b0 + (k1 + i) * w + w))).filterMap
             (fun p => p.1.order_id)).getLast?
         status := (((sortByTime valid).filter (fun p =>
             decide (b0 + (k1 + i) * w ≤ p.2 ∧
               p.2 < b0 + (k1 + i) * w + w))).filterMap
             (fun p => p.1.status)).getLast?
         cost := (((sortByTime valid).filter (fun p =>
             decide (b0 + (k1 + i) * w ≤ p.2 ∧
               p.2 < b0 + (k1 + i) * w + w))).filterMap
             (fun p => p.1.cost)).getLast?
         technician := (((sortByTime valid).filter (fun p =>
             decide (b0 + (k1 + i) * w ≤ p.2 ∧
               p.2 < b0 + (k1 + i) * w + w))).filterMap
             (fun p => p.1.technician)).getLast?
         repair_parts := (((sortByTime valid).filter (fun p =>
             decide (b0 + (k1 + i) * w ≤ p.2 ∧
               p.2 < b0 + (k1 + i) * w + w))).map
             (fun p => p.1.repair_parts)).getLast?
         filename := (((sortByTime valid).filter (fun p =>
             decide (b0 + (k1 + i) * w ≤ p.2 ∧
               p.2 < b0 + (k1 + i) * w + w))).map
             (fun p => p.1.filename)).getLast?
         load_datetime := (((sortByTime valid).filter (fun p =>
             decide (b0 + (k1 + i) * w ≤ p.2 ∧
               p.2 < b0 + (k1 + i) * w + w))).map
             (fun p => p.1.load_datetime)).getLast? }))) := by
  unfold window_by_datetime
  rw [if_neg (by simp [hne])]
  simp only [hp]
  simp only [hv]
  simp only [hts]
  rw [← hb0, ← hk1, ← hk2]
  congr 1
  apply List.map_congr_left
  intro i hi
  refine congrArg₂ Prod.mk rfl ?_
  have hfil : (sortByTime valid).filter
      (fun p => b0 + (p.2 - b0) / w * w == b0 + (k1 + i) * w)
      = (sortByTime valid).filter (fun p =>
          decide (b0 + (k1 + i) * w ≤ p.2 ∧ p.2 < b0 + (k1 + i) * w + w)) := by
    apply List.filter_congr
    intro p hpmem
    have hm2 : p.2 ∈ t :: ts := by
      rw [← hts]
      exact List.mem_map.mpr ⟨p, (mem_sortByTime p valid).mp hpmem, rfl⟩
    have hminle : ts.foldl Nat.min t ≤ p.2 := by
      rcases List.mem_cons.mp hm2 with h2 | h2
      · rw [h2]; exact foldl_min_le_self ts t
      · exact foldl_min_le_mem ts t p.2 h2
    have hb0le : b0 ≤ p.2 := by
      rw [hb0]
      exact Nat.le_trans (Nat.div_mul_le_self _ _) hminle
    rw [beq_nat_decide]
    exact decide_eq_decide.mpr (bucket_eq_iff w b0 (k1 + i) p.2 hw hb0le)
  congr 1
  all_goals simp only [lastNonNullInBin_eq, hfil, filterMap_some_comp]

/-! ## Claims -/

/-- C7: for an empty input (zero raw documents), the batch processor yields
two empty collections, and the time windower applied to the resulting empty
successes collection returns an empty mapping (the emitted warning is a pure
logging side effect) without raising any error. -/
theorem C7_empty_input_yields_empty_outputs (ctx : Ctx) (w : Nat) :
    process_xml_files ctx [] = ([], []) ∧ window_by_datetime w [] = .ok [] :=
  ⟨rfl, rfl⟩

/-- C3: the batch processor partitions its input exactly - the successes are
the records of the documents that flatten, in order; the failures are the
error records of the documents that raise, in order; and the two counts sum
to the input count.  No document lands in both or in neither collection, and
no failing document stops the processing of the rest. -/
theorem C3_partition_completeness (ctx : Ctx) (docs : List RawDocument) :
    (process_xml_files ctx docs).1
        = docs.filterMap (fun d => (flatten_event ctx d).toOption) ∧
    (process_xml_files ctx docs).2
        = (docs.filter (fun d => ((flatten_event ctx d).toOption).isNone)).map
            (fun d => error_record ctx d.filename d.content) ∧
    (process_xml_files ctx docs).1.length + (process_xml_files ctx docs).2.length
        = docs.length := by
  induction docs with
  | nil => exact ⟨rfl, rfl, rfl⟩
  | cons d ds ih =>
    obtain ⟨ih1, ih2, ih3⟩ := ih
    cases h : flatten_event ctx d with
    | ok r =>
      refine ⟨?_, ?_, ?_⟩
      · simp [process_xml_files, h, List.filterMap_cons, Except.toOption, ih1]
      · simp [process_xml_files, h, List.filter_cons, Except.toOption, ih2]
      · simp only [process_xml_files, h]
        simp only [List.length_cons]
        omega
    | error e =>
      refine ⟨?_, ?_, ?_⟩
      · simp [process_xml_files, h, List.filterMap_cons, Except.toOption, ih1]
      · simp [process_xml_files, h, List.filter_cons, Except.toOption, ih2]
      · simp only [process_xml_files, h]
        simp only [List.length_cons]
        omega

/-- C9: the run identifier and load timestamp fixed at construction are
carried unchanged by every successful record, every error record, and the
audit record of the run. -/
theorem C9_run_context_constant (ctx : Ctx) (docs : List RawDocument)
    (files : List String) :
    (∀ r ∈ (process_xml_files ctx docs).1,
        r.pipeline_id = ctx.pipeline_id ∧ r.load_datetime = ctx.load_datetime) ∧
    (∀ e ∈ (process_xml_files ctx docs).2,
        e.pipeline_id = ctx.pipeline_id ∧ e.load_datetime = ctx.load_datetime) ∧
    (∀ a ∈ get_audit_record ctx files (process_xml_files ctx docs).1
        (process_xml_files ctx docs).2,
        a.pipeline_id = ctx.pipeline_id ∧ a.load_datetime = ctx.load_datetime) := by
  refine ⟨?_, ?_, ?_⟩
  · induction docs with
    | nil => intro r hr; cases hr
    | cons d ds ih =>
      intro r hr
      cases h : flatten_event ctx d with
      | ok r0 =>
        simp only [process_xml_files, h, List.mem_cons] at hr
        rcases hr with rfl | hr
        · exact flatten_event_ctx ctx d r h
        · exact ih r hr
      | error e0 =>
        simp only [process_xml_files, h] at hr
        exact ih r hr
  · induction docs with
    | nil => intro e he; cases he
    | cons d ds ih =>
      intro e he
      cases h : flatten_event ctx d with
      | ok r0 =>
        simp only [process_xml_files, h] at he
        exact ih e he
      | error e0 =>
        simp only [process_xml_files, h, List.mem_cons] at he
        rcases he with rfl | he
        · exact ⟨rfl, rfl⟩
        · exact ih e he
  · intro a ha
    simp only [get_audit_record, List.mem_cons, List.not_mem_nil, or_false] at ha
    subst ha
    exact ⟨rfl, rfl⟩

/-- C9 witness: in a concrete run, the produced record carries the context's
identifier and timestamp. -/
theorem C9_witness :
    rec101.pipeline_id = ctx0.pipeline_id ∧
    rec101.load_datetime = ctx0.load_datetime :=
  (C9_run_context_constant ctx0 [doc101] ["test1.xml"]).1 rec101 (by decide)

/-- C10: the time windower produces a new keyed structure and leaves the
input collection of successful records unchanged - the `eventDf` rows are
identical before and after windowing (the source works on a deep copy), and
the returned value is exactly the pure windowing of the input rows. -/
theorem C10_windower_preserves_input (w : Nat) (s : ProcState) :
    ((window_by_datetime_run w s).2).eventDf = s.eventDf ∧
    (window_by_datetime_run w s).1 = window_by_datetime w s.eventDf := by
  unfold window_by_datetime_run
  split
  next hE => exact ⟨rfl, by rw [window_by_datetime, if_pos hE]⟩
  next hE =>
    cases h : window_by_datetime w s.eventDf <;> simp [h]

/-- C8: projection is deterministic and idempotent - it leaves the object
state unchanged, and re-running it on that same state yields the same list
of projected orders, structurally equal. -/
theorem C8_projection_idempotent (s : ProcState) (l : List RO)
    (h : (process_to_RO_run s).1 = .ok l) :
    (process_to_RO_run s).2 = s ∧
    (process_to_RO_run ((process_to_RO_run s).2)).1 = .ok l :=
  ⟨rfl, h⟩

/-- C8 witness: a concrete windowed state projects successfully, and the
second run returns the structurally equal list. -/
theorem C8_witness :
    (process_to_RO_run wstate0).1 = .ok [ro101, ro102] ∧
    (process_to_RO_run wstate0).2 = wstate0 ∧
    (process_to_RO_run ((process_to_RO_run wstate0).2)).1 = .ok [ro101, ro102] :=
  ⟨rfl, (C8_projection_idempotent wstate0 [ro101, ro102] rfl).1,
    (C8_projection_idempotent wstate0 [ro101, ro102] rfl).2⟩

/-- C6: on the worked example - order 101 at 2023-08-10T10:00:00 and order
102 at 2023-08-11T12:00:00 - windowing by one day produces exactly two
buckets, each mapping to the record whose event time falls on that day. -/
theorem C6_worked_example_two_day_buckets :
    window_by_datetime 86400 [rec101, rec102] =
      .ok [("2023-08-10 00:00:00", rowOfRecord rec101),
           ("2023-08-11 00:00:00", rowOfRecord rec102)] := rfl

/-- C2 counterexample: the raw-content field of an error record is not equal,
character for character, to the document's original text - `error_record`
stores `json.dumps(content)`, which wraps the text in quotes and escapes it. -/
theorem C2_counterexample :
    (error_record ctx0 "broken.xml" "<a/>").xml_data ≠ "<a/>" := by decide

/-- C2 amended: the raw-content field of an error record equals the JSON
string serialization (`json.dumps`) of the document's original text - from
which the text is recoverable, but which is strictly longer than and never
equal to the text itself. -/
theorem C2_error_record_json_encoded (ctx : Ctx) (file content : String) :
    (error_record ctx file content).xml_data = jsonDumpsString content ∧
    content.length + 2 ≤ (error_record ctx file content).xml_data.length ∧
    (error_record ctx file content).xml_data ≠ content := by
  have hlen : (jsonDumpsString content).length
      = (jsonEncodeChars content.data).length + 2 := by
    show (Char.ofNat 34 :: jsonEncodeChars content.data ++ [Char.ofNat 34]).length = _
    simp
  have hchars := length_le_jsonEncodeChars content.data
  have hdata : content.length = content.data.length := rfl
  have hle : content.length + 2 ≤ (jsonDumpsString content).length := by omega
  refine ⟨rfl, hle, ?_⟩
  intro hEq
  have hl2 := congrArg String.length hEq
  have hxml : (error_record ctx file content).xml_data.length
      = (jsonDumpsString content).length := rfl
  omega

/-- C4: for a document whose view lacks any required scalar field (order_id,
date_time, status, cost or technician), the event parser signals the failure
to its caller as an uncaught exception, and the batch processor catches it at
its boundary, converting it into an error record in the failure collection of
any batch containing the document instead of propagating it. -/
theorem C4_missing_field_isolated (ctx : Ctx) (d : RawDocument) (ev : EventXml)
    (hv : d.parsed = some ev)
    (hmiss : ev.order_id = none ∨ ev.date_time = none ∨ ev.status = none ∨
      ev.cost = none ∨ ev.technician = none) :
    (∃ f, flatten_event ctx d = .error (.missingField f)) ∧
    ∀ docs, d ∈ docs →
      error_record ctx d.filename d.content ∈ (process_xml_files ctx docs).2 := by
  have herr : ∃ f, flatten_event ctx d = .error (.missingField f) := by
    unfold flatten_event
    rw [hv]
    obtain ⟨o, dt, st, co, te, rp⟩ := ev
    simp only at hmiss
    cases o with
    | none => exact ⟨"order_id", rfl⟩
    | some o0 =>
      cases dt with
      | none => exact ⟨"date_time", rfl⟩
      | some dt0 =>
        cases st with
        | none => exact ⟨"status", rfl⟩
        | some st0 =>
          cases co with
          | none => exact ⟨"cost", rfl⟩
          | some co0 =>
            cases te with
            | none => exact ⟨"technician", rfl⟩
            | some te0 => rcases hmiss with h | h | h | h | h <;> simp at h
  refine ⟨herr, ?_⟩
  intro docs hd
  obtain ⟨f, hf⟩ := herr
  exact error_record_mem_of_failure ctx d _ hf docs hd

/-- C4 witness: the document with no technician element fails to flatten with
a missing-field error, and processing a batch containing it places its error
record in the failure collection. -/
theorem C4_witness :
    (∃ f, flatten_event ctx0 docNoTech = .error (.missingField f)) ∧
    error_record ctx0 docNoTech.filename docNoTech.content ∈
      (process_xml_files ctx0 [doc101, docNoTech]).2 :=
  ⟨(C4_missing_field_isolated ctx0 docNoTech
      { order_id := some "7", date_time := some "2023-08-10T10:00:00",
        status := some "Open", cost := some "1.00", technician := none,
        repair_parts := none } rfl
      (Or.inr (Or.inr (Or.inr (Or.inr rfl))))).1,
   (C4_missing_field_isolated ctx0 docNoTech
      { order_id := some "7", date_time := some "2023-08-10T10:00:00",
        status := some "Open", cost := some "1.00", technician := none,
        repair_parts := none } rfl
      (Or.inr (Or.inr (Or.inr (Or.inr rfl))))).2
     [doc101, docNoTech] (by decide)⟩

/-- C1 counterexample: with records on 2023-08-10 and 2023-08-12 and a one-day
window, the mapping assigns the all-NaN row to the 2023-08-11 bucket
boundary even though a record with event_time at or before that boundary
exists (order 101, 2023-08-10T10:00:00, epoch 1691661600 - at or before the
boundary epoch 1691712000).  The claimed forward-fill semantics would assign
that record; the code does not. -/
theorem C1_counterexample :
    window_by_datetime 86400 [rec101, rec103] =
      .ok [("2023-08-10 00:00:00", rowOfRecord rec101),
           ("2023-08-11 00:00:00", nanRow),
           ("2023-08-12 00:00:00", rowOfRecord rec103)] ∧
    rec101.date_time.bind parseDateTime = some 1691661600 ∧
    fmtTimestamp 1691712000 = "2023-08-11 00:00:00" ∧
    1691661600 ≤ 1691712000 :=
  ⟨rfl, rfl, rfl, by omega⟩

/-- C1 amended: for every non-empty successes collection (with parseable
event times, records with a missing event time being dropped as `NaT`) and
every window size, the mapping assigns to each bucket boundary a row holding,
for each column independently, the last non-null value among the records (by
event_time order, ties broken by input order - the stable sort the resampler
performs) whose event_time falls within the half-open bucket
`[boundary, boundary + window)` - records strictly within that bucket, not
forward-fill.  With no null field values this is the bucket's last record; a
boundary whose bucket contains no record gets the all-NaN row; and a bucket
whose later records hold nulls gets a row mixing columns of different
records. -/
theorem C1_windower_keeps_last_record_per_bucket (w : Nat)
    (recs : List FlatRecord) (pairs : List (FlatRecord × Option Nat))
    (valid : List (FlatRecord × Nat)) (t : Nat) (ts : List Nat)
    (b0 k1 k2 : Nat) (hw : 0 < w) (hne : recs.isEmpty = false)
    (hp : parseTimes recs = some pairs)
    (hv : pairs.filterMap (fun p => p.2.map (fun u => (p.1, u))) = valid)
    (hts : valid.map Prod.snd = t :: ts)
    (hb0 : b0 = ts.foldl Nat.min t / 86400 * 86400)
    (hk1 : k1 = (ts.foldl Nat.min t - b0) / w)
    (hk2 : k2 = (ts.foldl Nat.max t - b0) / w) :
    window_by_datetime w recs = .ok ((List.range (k2 - k1 + 1)).map (fun i =>
      (fmtTimestamp (b0 + (k1 + i) * w),
       { pipeline_id := (((sortByTime valid).filter (fun p =>
             decide (b0 + (k1 + i) * w ≤ p.2 ∧
               p.2 < b0 + (k1 + i) * w + w))).map
             (fun p => p.1.pipeline_id)).getLast?
         order_id := (((sortByTime valid).filter (fun p =>
             decide (b0 + (k1 + i) * w ≤ p.2 ∧
               p.2 < b0 + (k1 + i) * w + w))).filterMap
             (fun p => p.1.order_id)).getLast?
         status := (((sortByTime valid).filter (fun p =>
             decide (b0 + (k1 + i) * w ≤ p.2 ∧
               p.2 < b0 + (k1 + i) * w + w))).filterMap
             (fun p => p.1.status)).getLast?
         cost := (((sortByTime valid).filter (fun p =>
             decide (b0 + (k1 + i) * w ≤ p.2 ∧
               p.2 < b0 + (k1 + i) * w + w))).filterMap
             (fun p => p.1.cost)).getLast?
         technician := (((sortByTime valid).filter (fun p =>
             decide (b0 + (k1 + i) * w ≤ p.2 ∧
               p.2 < b0 + (k1 + i) * w + w))).filterMap
             (fun p => p.1.technician)).getLast?
         repair_parts := (((sortByTime valid).filter (fun p =>
             decide (b0 + (k1 + i) * w ≤ p.2 ∧
               p.2 < b0 + (k1 + i) * w + w))).map
             (fun p => p.1.repair_parts)).getLast?
         filename := (((sortByTime valid).filter (fun p =>
             decide (b0 + (k1 + i) * w ≤ p.2 ∧
               p.2 < b0 + (k1 + i) * w + w))).map
             (fun p => p.1.filename)).getLast?
         load_datetime := (((sortByTime valid).filter (fun p =>
             decide (b0 + (k1 + i) * w ≤ p.2 ∧
               p.2 < b0 + (k1 + i) * w + w))).map
             (fun p => p.1.load_datetime)).getLast? }))) :=
  window_ok_eq w recs pairs valid t ts b0 k1 k2 hw hne hp hv hts hb0 hk1 hk2

/-- C1 witness: the amended characterization instantiated on a concrete
one-bucket example whose later record has a null technician, and the
evaluated result - a row mixing the two records: every column from order 104
except `technician`, whose last non-null value comes from order 101. -/
theorem C1_witness :
    0 < 86400 ∧
    parseTimes [rec101, rec104] =
      some [(rec101, some 1691661600), (rec104, some 1691668800)] ∧
    window_by_datetime 86400 [rec101, rec104] =
      .ok ((List.range (0 - 0 + 1)).map (fun i =>
        (fmtTimestamp (1691625600 + (0 + i) * 86400),
         { pipeline_id := (((sortByTime
               [(rec101, 1691661600), (rec104, 1691668800)]).filter (fun p =>
               decide (1691625600 + (0 + i) * 86400 ≤ p.2 ∧
                 p.2 < 1691625600 + (0 + i) * 86400 + 86400))).map
               (fun p => p.1.pipeline_id)).getLast?
           order_id := (((sortByTime
               [(rec101, 1691661600), (rec104, 1691668800)]).filter (fun p =>
               decide (1691625600 + (0 + i) * 86400 ≤ p.2 ∧
                 p.2 < 1691625600 + (0 + i) * 86400 + 86400))).filterMap
               (fun p => p.1.order_id)).getLast?
           status := (((sortByTime
               [(rec101, 1691661600), (rec104, 1691668800)]).filter (fun p =>
               decide (1691625600 + (0 + i) * 86400 ≤ p.2 ∧
                 p.2 < 1691625600 + (0 + i) * 86400 + 86400))).filterMap
               (fun p => p.1.status)).getLast?
           cost := (((sortByTime
               [(rec101, 1691661600), (rec104, 1691668800)]).filter (fun p =>
               decide (1691625600 + (0 + i) * 86400 ≤ p.2 ∧
                 p.2 < 1691625600 + (0 + i) * 86400 + 86400))).filterMap
               (fun p => p.1.cost)).getLast?
           technician := (((sortByTime
               [(rec101, 1691661600), (rec104, 1691668800)]).filter (fun p =>
               decide (1691625600 + (0 + i) * 86400 ≤ p.2 ∧
                 p.2 < 1691625600 + (0 + i) * 86400 + 86400))).filterMap
               (fun p => p.1.technician)).getLast?
           repair_parts := (((sortByTime
               [(rec101, 1691661600), (rec104, 1691668800)]).filter (fun p =>
               decide (1691625600 + (0 + i) * 86400 ≤ p.2 ∧
                 p.2 < 1691625600 + (0 + i) * 86400 + 86400))).map
               (fun p => p.1.repair_parts)).getLast?
           filename := (((sortByTime
               [(rec101, 1691661600), (rec104, 1691668800)]).filter (fun p =>
               decide (1691625600 + (0 + i) * 86400 ≤ p.2 ∧
                 p.2 < 1691625600 + (0 + i) * 86400 + 86400))).map
               (fun p => p.1.filename)).getLast?
           load_datetime := (((sortByTime
               [(rec101, 1691661600), (rec104, 1691668800)]).filter (fun p =>
               decide (1691625600 + (0 + i) * 86400 ≤ p.2 ∧
                 p.2 < 1691625600 + (0 + i) * 86400 + 86400))).map
               (fun p => p.1.load_datetime)).getLast? }))) ∧
    window_by_datetime 86400 [rec101, rec104] =
      .ok [("2023-08-10 00:00:00",
        { pipeline_id := some ctx0.pipeline_id
          order_id := some "104"
          status := some "Completed"
          cost := some "20.00"
          technician := some "Jane Smith"
          repair_parts := some (jsonDumpsParts [])
          filename := some "test4.xml"
          load_datetime := some ctx0.load_datetime })] :=
  ⟨by omega, by decide,
   C1_windower_keeps_last_record_per_bucket 86400 [rec101, rec104]
     [(rec101, some 1691661600), (rec104, some 1691668800)]
     [(rec101, 1691661600), (rec104, 1691668800)] 1691661600 [1691668800]
     1691625600 0 0 (by omega) rfl (by decide) rfl rfl (by decide) (by decide)
     (by decide),
   rfl⟩

/-- C5: when the event times leave some window bucket in range with no
record, the windower emits an entry for that bucket holding the all-NaN row,
and projection then raises when it reaches such an entry - so the windowed
mapping is not one-to-one with non-empty buckets. -/
theorem C5_empty_bucket_null_row_breaks_projection (w : Nat)
    (recs : List FlatRecord) (pairs : List (FlatRecord × Option Nat))
    (valid : List (FlatRecord × Nat)) (t : Nat) (ts : List Nat)
    (b0 k1 k2 i : Nat) (hw : 0 < w)
    (hne : recs.isEmpty = false) (hp : parseTimes recs = some pairs)
    (hv : pairs.filterMap (fun p => p.2.map (fun u => (p.1, u))) = valid)
    (hts : valid.map Prod.snd = t :: ts)
    (hb0 : b0 = ts.foldl Nat.min t / 86400 * 86400)
    (hk1 : k1 = (ts.foldl Nat.min t - b0) / w)
    (hk2 : k2 = (ts.foldl Nat.max t - b0) / w)
    (hi : i < k2 - k1 + 1)
    (hempty : ∀ p ∈ valid,
      ¬(b0 + (k1 + i) * w ≤ p.2 ∧ p.2 < b0 + (k1 + i) * w + w)) :
    ∃ m, window_by_datetime w recs = .ok m ∧
      (fmtTimestamp (b0 + (k1 + i) * w), nanRow) ∈ m ∧
      ∃ e, process_to_RO m = .error e := by
  have hwin :=
    window_ok_eq w recs pairs valid t ts b0 k1 k2 hw hne hp hv hts hb0 hk1 hk2
  have hfil : (sortByTime valid).filter (fun p =>
      decide (b0 + (k1 + i) * w ≤ p.2 ∧ p.2 < b0 + (k1 + i) * w + w)) = [] :=
    List.filter_eq_nil_iff.mpr (fun p hp0 => by
      simpa using hempty p ((mem_sortByTime p valid).mp hp0))
  have hmem : (fmtTimestamp (b0 + (k1 + i) * w), nanRow) ∈
      (List.range (k2 - k1 + 1)).map (fun j =>
        (fmtTimestamp (b0 + (k1 + j) * w),
         { pipeline_id := (((sortByTime valid).filter (fun p =>
               decide (b0 + (k1 + j) * w ≤ p.2 ∧
                 p.2 < b0 + (k1 + j) * w + w))).map
               (fun p => p.1.pipeline_id)).getLast?
           order_id := (((sortByTime valid).filter (fun p =>
               decide (b0 + (k1 + j) * w ≤ p.2 ∧
                 p.2 < b0 + (k1 + j) * w + w))).filterMap
               (fun p => p.1.order_id)).getLast?
           status := (((sortByTime valid).filter (fun p =>
               decide (b0 + (k1 + j) * w ≤ p.2 ∧
                 p.2 < b0 + (k1 + j) * w + w))).filterMap
               (fun p => p.1.status)).getLast?
           cost := (((sortByTime valid).filter (fun p =>
               decide (b0 + (k1 + j) * w ≤ p.2 ∧
                 p.2 < b0 + (k1 + j) * w + w))).filterMap
               (fun p => p.1.cost)).getLast?
           technician := (((sortByTime valid).filter (fun p =>
               decide (b0 + (k1 + j) * w ≤ p.2 ∧
                 p.2 < b0 + (k1 + j) * w + w))).filterMap
               (fun p => p.1.technician)).getLast?
           repair_parts := (((sortByTime valid).filter (fun p =>
               decide (b0 + (k1 + j) * w ≤ p.2 ∧
                 p.2 < b0 + (k1 + j) * w + w))).map
               (fun p => p.1.repair_parts)).getLast?
           filename := (((sortByTime valid).filter (fun p =>
               decide (b0 + (k1 + j) * w ≤ p.2 ∧
                 p.2 < b0 + (k1 + j) * w + w))).map
               (fun p => p.1.filename)).getLast?
           load_datetime := (((sortByTime valid).filter (fun p =>
               decide (b0 + (k1 + j) * w ≤ p.2 ∧
                 p.2 < b0 + (k1 + j) * w + w))).map
               (fun p => p.1.load_datetime)).getLast? })) := by
    apply List.mem_map.mpr
    refine ⟨i, List.mem_range.mpr hi, ?_⟩
    simp only [hfil]
    rfl
  exact ⟨_, hwin, hmem, process_to_RO_error_of_mem_none _ _ nanRow hmem rfl⟩

/-- C5 witness: on the two-record gap example the 2023-08-11 bucket is empty,
its entry holds the null row, and projection raises on the mapping. -/
theorem C5_witness :
    (∀ p ∈ ([(rec101, 1691661600), (rec103, 1691832600)]
        : List (FlatRecord × Nat)),
      ¬(1691625600 + (0 + 1) * 86400 ≤ p.2 ∧
          p.2 < 1691625600 + (0 + 1) * 86400 + 86400)) ∧
    ∃ m, window_by_datetime 86400 [rec101, rec103] = .ok m ∧
      (fmtTimestamp (1691625600 + (0 + 1) * 86400), nanRow) ∈ m ∧
      ∃ e, process_to_RO m = .error e :=
  ⟨by decide,
   C5_empty_bucket_null_row_breaks_projection 86400 [rec101, rec103]
     [(rec101, some 1691661600), (rec103, some 1691832600)]
     [(rec101, 1691661600), (rec103, 1691832600)] 1691661600 [1691832600]
     1691625600 0 2 1 (by omega) rfl (by decide) rfl rfl (by decide) (by decide)
     (by decide) (by omega) (by decide)⟩
